import Mathlib

/-
Verification of the session-history persistence component of the
Ollama Coding Playground (src/streamlit.py).

The persisted data is JSON.  We embed the relevant fragment of JSON
shallowly: a parsed record (a JSON object whose values are strings,
such as a conversation turn or a legacy record) is an association
list of string keys to string values, a parsed file is a `Doc`
(a list of records, or one of the other JSON shapes that matter for
Python truthiness), and the directory of session files is a `Store`,
an association list from session id to file content.  A file whose
bytes fail to parse, or whose read raises an I/O error, is
`FileContent.corrupt`.
-/

set_option autoImplicit false

namespace OllamaPlayground

/-- A parsed JSON object whose values are strings: the shape of both a
current-format conversation turn and of a legacy record. -/
abbrev Obj := List (String × String)

/-- First-match lookup in an association list with string keys, the
embedding of Python dictionary access and of the directory mapping. -/
def lookupKey {α : Type} : List (String × α) → String → Option α
  | [], _ => none
  | (k, v) :: rest, key => if k = key then some v else lookupKey rest key

/-- Remove every entry with the given key, the embedding of deleting the
file named by a session id. -/
def eraseKey {α : Type} : List (String × α) → String → List (String × α)
  | [], _ => []
  | (k, v) :: rest, key =>
      if k = key then eraseKey rest key else (k, v) :: eraseKey rest key

/-- The JSON shapes a session file can parse to.  `arr` is the expected
shape (a list of records); the other constructors are there because the
source returns the raw parsed value and tests its Python truthiness. -/
inductive Doc : Type
  | arr (elems : List Obj)
  | null
  | boolean (b : Bool)
  | num (n : Int)
  | str (s : String)
  | obj (fields : Obj)
deriving DecidableEq, Repr

/-- Python truthiness of a parsed JSON value, as tested by
`history_data if history_data else []` on line 44 of src/streamlit.py. -/
def Doc.truthy : Doc → Bool
  | Doc.arr elems => !elems.isEmpty
  | Doc.null => false
  | Doc.boolean b => b
  | Doc.num n => n != 0
  | Doc.str s => !s.isEmpty
  | Doc.obj fields => !fields.isEmpty

/-- Content of a persisted session file: either bytes that parse to a
JSON value, or bytes whose read or parse fails (`json.JSONDecodeError`
or `IOError` in the source). -/
inductive FileContent : Type
  | json (d : Doc)
  | corrupt
deriving DecidableEq, Repr

/-- The history directory: association list from session id to the
content of that session's file. -/
abbrev Store := List (String × FileContent)

/-- `load_history` (src/streamlit.py lines 33-44): missing file gives
`[]`, unreadable or unparseable content gives `[]`, otherwise the parsed
value is returned if truthy and `[]` if falsy.  The function is total:
no error reaches the caller. -/
def load_history (st : Store) (session_id : String) : Doc :=
  match lookupKey st session_id with
  | none => Doc.arr []
  | some FileContent.corrupt => Doc.arr []
  | some (FileContent.json d) => if d.truthy then d else Doc.arr []

/-- `save_history` (src/streamlit.py lines 46-49): overwrite the file
for `session_id` with the serialized history, creating it if absent. -/
def save_history (st : Store) (session_id : String) (history : Doc) : Store :=
  (session_id, FileContent.json history) :: eraseKey st session_id

/-- `get_session_ids` (src/streamlit.py lines 51-52): the stems of the
files in the history directory, i.e. the keys of the store. -/
def get_session_ids (st : Store) : List String :=
  st.map Prod.fst

/-- `delete_sessions` (src/streamlit.py lines 54-58): for each id in the
list, unlink its file if it exists; a missing file is skipped. -/
def delete_sessions (st : Store) (session_ids : List String) : Store :=
  session_ids.foldl
    (fun s sid => if (lookupKey s sid).isSome then eraseKey s sid else s) st

/-- The error message `st.error` shows when the model-listing request
fails (src/streamlit.py line 30). -/
def fetchErrorReport (msg : String) : String :=
  "Error fetching models: " ++ msg ++ ". Is Ollama running?"

/-- Outcome of the HTTP request issued by `fetch_models`: either a
`requests.exceptions.RequestException` (connection failure or, via
`raise_for_status`, an HTTP error status), or a successful response
whose parsed JSON body may or may not carry a `models` key. -/
inductive FetchOutcome : Type
  | exc (msg : String)
  | ok (models_field : Option (List Obj))

/-- The list comprehension on line 28, `[model["name"] for model in
models]`: Python raises `KeyError` (not caught by the handler, which
only catches `RequestException`) when an entry lacks `"name"`. -/
def extractNames : List Obj → Except String (List String)
  | [] => Except.ok []
  | m :: rest =>
      match lookupKey m "name" with
      | none => Except.error "KeyError: name"
      | some n => (extractNames rest).map (fun ns => n :: ns)

/-- `fetch_models` (src/streamlit.py lines 22-31).  The result pairs the
returned model-name list with the list of error messages reported to the
presentation layer (`st.error`); `Except.error` marks an uncaught
Python exception escaping the function. -/
def fetch_models (o : FetchOutcome) : Except String (List String × List String) :=
  match o with
  | FetchOutcome.exc msg => Except.ok ([], [fetchErrorReport msg])
  | FetchOutcome.ok none => Except.ok ([], [])
  | FetchOutcome.ok (some ms) => (extractNames ms).map (fun ns => (ns, []))

/-- The delete-button handler (src/streamlit.py lines 79-83): it calls
`delete_sessions` on the selected ids and reruns the page; it never
touches `st.session_state.messages`, the controller's in-memory turn
sequence, which survives the rerun unchanged until an explicit load. -/
def delete_button_handler (st : Store) (messages : Doc)
    (selected : List String) : Store × Doc :=
  (delete_sessions st selected, messages)

/-- Modelled from the spec: legacy-form detection in the repository's
other page variants, absent from src/streamlit.py — "detected by
presence of a `query` key on the first element". -/
def isLegacyForm : List Obj → Bool
  | [] => false
  | first :: _ => (lookupKey first "query").isSome

/-- Modelled from the spec: migration of one legacy record — "if it
carries a `query` field, append a user-role turn with that content;
independently, if it carries a `response` field, append an
assistant-role turn with that content". -/
def migrateRecord (o : Obj) : List Obj :=
  (match lookupKey o "query" with
   | some q => [[("role", "user"), ("content", q)]]
   | none => []) ++
  (match lookupKey o "response" with
   | some r => [[("role", "assistant"), ("content", r)]]
   | none => [])

/-- Modelled from the spec: "iterate the legacy sequence in order",
appending the turns produced by each record. -/
def migrate : List Obj → List Obj
  | [] => []
  | r :: rest => migrateRecord r ++ migrate rest

/-- Modelled from the spec: the in-memory migration step performed by
`load` in the repository's other page variants — migrate exactly when
the loaded data is detected to be in legacy form. -/
def migrationStep (records : List Obj) : List Obj :=
  if isLegacyForm records then migrate records else records

/-- Modelled from the spec: the variant of `load` in the repository's
other page variants that, after reading as `load_history` does, detects
legacy form, migrates in memory, persists the migrated form back under
the same session id, and returns the migrated sequence.  The result
pairs the returned sequence with the resulting store. -/
def load_history_migrating (st : Store) (session_id : String) :
    List Obj × Store :=
  match load_history st session_id with
  | Doc.arr records =>
      if isLegacyForm records then
        (migrate records,
         save_history st session_id (Doc.arr (migrate records)))
      else (records, st)
  | _ => ([], st)

/-- A record in current ConversationTurn form: exactly a `role` field
whose value is `user` or `assistant`, followed by a `content` field. -/
def isTurnObj : Obj → Bool
  | [(k1, r), (k2, _)] =>
      k1 == "role" && k2 == "content" && (r == "user" || r == "assistant")
  | _ => false

/-- A sequence already in current role/content format. -/
def isCurrentFormat (records : List Obj) : Bool :=
  records.all isTurnObj

/-- Concrete legacy-format records, the scenario of the spec:
`[{"query":"a","response":"b"},{"query":"c"}]`. -/
def demoLegacyRecords : List Obj :=
  [[("query", "a"), ("response", "b")], [("query", "c")]]

/-- A concrete store holding one legacy-format session file. -/
def demoStore : Store :=
  [("s", FileContent.json (Doc.arr demoLegacyRecords))]

/-- Concrete current-format turns, the scenario of the spec:
`[{user,"hi"},{assistant,"hello"}]`. -/
def demoTurns : List Obj :=
  [[("role", "user"), ("content", "hi")], [("role", "assistant"), ("content", "hello")]]

/-- A concrete store holding one unreadable session file. -/
def demoCorruptStore : Store :=
  [("bad", FileContent.corrupt)]

/-- A concrete store holding one session file that parses to `null`. -/
def demoNullStore : Store :=
  [("n", FileContent.json Doc.null)]

/- ------------------------------------------------------------------ -/
/- Helper lemmas about the association-list store.                     -/
/- ------------------------------------------------------------------ -/

theorem lookupKey_eraseKey_self {α : Type} (l : List (String × α)) (k : String) :
    lookupKey (eraseKey l k) k = none := by
  induction l with
  | nil => rfl
  | cons p rest ih =>
      obtain ⟨k', v⟩ := p
      by_cases h : k' = k
      · simp [eraseKey, h, ih]
      · simp [eraseKey, lookupKey, h, ih]

theorem lookupKey_eraseKey_ne {α : Type} (l : List (String × α)) (k sid : String)
    (h : k ≠ sid) : lookupKey (eraseKey l k) sid = lookupKey l sid := by
  induction l with
  | nil => rfl
  | cons p rest ih =>
      obtain ⟨k', v⟩ := p
      by_cases hk : k' = k
      · subst hk
        simp [eraseKey, lookupKey, h, ih]
      · simp only [eraseKey, if_neg hk, lookupKey]
        by_cases hs : k' = sid
        · simp [hs]
        · simp [hs, ih]

theorem lookupKey_eq_none_iff {α : Type} (l : List (String × α)) (k : String) :
    lookupKey l k = none ↔ k ∉ l.map Prod.fst := by
  induction l with
  | nil => simp [lookupKey]
  | cons p rest ih =>
      obtain ⟨k', v⟩ := p
      by_cases h : k' = k
      · simp [lookupKey, h]
      · simp [lookupKey, h, ih, Ne.symm h]

theorem lookupKey_deleteStep (s : Store) (k sid : String) :
    lookupKey (if (lookupKey s k).isSome then eraseKey s k else s) sid =
      if k = sid then none else lookupKey s sid := by
  by_cases hk : k = sid
  · subst hk
    cases h : lookupKey s k with
    | none => simp [h]
    | some v => simp [h, lookupKey_eraseKey_self]
  · by_cases hs : (lookupKey s k).isSome
    · simp [hs, hk, lookupKey_eraseKey_ne s k sid hk]
    · simp [hs, hk]

theorem lookupKey_delete_sessions (sids : List String) (st : Store) (sid : String) :
    lookupKey (delete_sessions st sids) sid =
      if sid ∈ sids then none else lookupKey st sid := by
  induction sids generalizing st with
  | nil => simp [delete_sessions]
  | cons k rest ih =>
      have hstep : delete_sessions st (k :: rest) =
          delete_sessions (if (lookupKey st k).isSome then eraseKey st k else st)
            rest := rfl
      rw [hstep, ih, lookupKey_deleteStep]
      by_cases hmem : sid ∈ rest
      · simp [hmem]
      · by_cases hk : k = sid
        · simp [hmem, hk]
        · simp [hmem, hk, Ne.symm hk]

theorem delete_sessions_absent (sids : List String) (st : Store)
    (h : ∀ sid ∈ sids, lookupKey st sid = none) :
    delete_sessions st sids = st := by
  induction sids with
  | nil => rfl
  | cons k rest ih =>
      have hk : lookupKey st k = none := h k (List.mem_cons_self k rest)
      have hstep : delete_sessions st (k :: rest) = delete_sessions st rest := by
        show delete_sessions
            (if (lookupKey st k).isSome then eraseKey st k else st) rest = _
        rw [hk]
        rfl
      rw [hstep]
      exact ih (fun sid hs => h sid (List.mem_cons_of_mem k hs))

/- ------------------------------------------------------------------ -/
/- Helper lemmas about migration.                                      -/
/- ------------------------------------------------------------------ -/

theorem migrateRecord_turns (o : Obj) (t : Obj) (ht : t ∈ migrateRecord o) :
    isTurnObj t = true := by
  unfold migrateRecord at ht
  cases hq : lookupKey o "query" <;> cases hr : lookupKey o "response" <;>
      rw [hq, hr] at ht <;> simp at ht
  · subst ht; rfl
  · subst ht; rfl
  · rcases ht with ht | ht <;> (subst ht; rfl)

theorem migrate_current (records : List Obj) :
    isCurrentFormat (migrate records) = true := by
  induction records with
  | nil => rfl
  | cons r rest ih =>
      simp only [migrate, isCurrentFormat, List.all_append, Bool.and_eq_true]
      refine ⟨?_, ih⟩
      simp only [List.all_eq_true]
      exact fun t ht => migrateRecord_turns r t ht

theorem isLegacyForm_of_current (records : List Obj)
    (h : isCurrentFormat records = true) : isLegacyForm records = false := by
  cases records with
  | nil => rfl
  | cons r rest =>
      have hr : isTurnObj r = true := by
        simp only [isCurrentFormat, List.all_cons, Bool.and_eq_true] at h
        exact h.1
      rcases r with _ | ⟨⟨k1, v1⟩, _ | ⟨⟨k2, v2⟩, tail⟩⟩
      · simp [isTurnObj] at hr
      · simp [isTurnObj] at hr
      · cases tail with
        | cons p tl => simp [isTurnObj] at hr
        | nil =>
            simp only [isTurnObj, Bool.and_eq_true, beq_iff_eq] at hr
            obtain ⟨⟨hk1, hk2⟩, _⟩ := hr
            subst hk1; subst hk2
            simp only [isLegacyForm, lookupKey]
            rw [if_neg (by decide), if_neg (by decide)]
            rfl

theorem extractNames_ok (ms : List Obj) :
    (∀ m ∈ ms, (lookupKey m "name").isSome = true) →
    extractNames ms = Except.ok (ms.filterMap (fun m => lookupKey m "name")) := by
  induction ms with
  | nil => intro _; rfl
  | cons m rest ih =>
      intro hok
      obtain ⟨n, hn⟩ :=
        Option.isSome_iff_exists.mp (hok m (List.mem_cons_self m rest))
      simp [extractNames, hn, List.filterMap_cons, Except.map,
        ih (fun x hx => hok x (List.mem_cons_of_mem m hx))]

/- ------------------------------------------------------------------ -/
/- Claim theorems.                                                     -/
/- ------------------------------------------------------------------ -/

/-- C1: for every session id whose persisted file contains a
legacy-format sequence (first element has a `query` key), the migrating
load returns the migrated sequence, persists the migrated form back
under the same session id, and the persisted form is entirely in
role/content ConversationTurn form, so no legacy-form data remains on
disk for that id. -/
theorem load_migrates_and_rewrites_legacy (st : Store) (sid : String)
    (records : List Obj)
    (hfile : lookupKey st sid = some (FileContent.json (Doc.arr records)))
    (hlegacy : isLegacyForm records = true) :
    (load_history_migrating st sid).1 = migrate records ∧
    lookupKey (load_history_migrating st sid).2 sid =
      some (FileContent.json (Doc.arr (migrate records))) ∧
    isCurrentFormat (migrate records) = true ∧
    isLegacyForm (migrate records) = false := by
  have hne : records ≠ [] := by
    intro h
    rw [h] at hlegacy
    simp [isLegacyForm] at hlegacy
  have htr : (Doc.arr records).truthy = true := by
    simp [Doc.truthy, hne]
  have hload : load_history st sid = Doc.arr records := by
    simp [load_history, hfile, htr]
  have hmig : load_history_migrating st sid =
      (migrate records, save_history st sid (Doc.arr (migrate records))) := by
    simp [load_history_migrating, hload, hlegacy]
  have hcur := migrate_current records
  refine ⟨by rw [hmig], ?_, hcur, isLegacyForm_of_current _ hcur⟩
  rw [hmig]
  simp [save_history, lookupKey]

/-- Witness for C1 on the spec scenario store. -/
theorem load_migrates_and_rewrites_legacy_witness :
    (load_history_migrating demoStore "s").1 = migrate demoLegacyRecords ∧
    lookupKey (load_history_migrating demoStore "s").2 "s" =
      some (FileContent.json (Doc.arr (migrate demoLegacyRecords))) ∧
    isCurrentFormat (migrate demoLegacyRecords) = true ∧
    isLegacyForm (migrate demoLegacyRecords) = false :=
  load_migrates_and_rewrites_legacy demoStore "s" demoLegacyRecords
    (by decide) (by decide)

/-- C2: migration walks the records in order; a record with both
`query` and `response` yields exactly the two turns
[user(query), assistant(response)] in that order, and a record with
only `response` yields exactly one assistant turn. -/
theorem migrate_per_record (o o2 : Obj) (rest : List Obj) (q r r2 : String)
    (hq : lookupKey o "query" = some q)
    (hr : lookupKey o "response" = some r)
    (hq2 : lookupKey o2 "query" = none)
    (hr2 : lookupKey o2 "response" = some r2) :
    migrate (o :: rest) = migrateRecord o ++ migrate rest ∧
    migrateRecord o =
      [[("role", "user"), ("content", q)],
       [("role", "assistant"), ("content", r)]] ∧
    migrateRecord o2 = [[("role", "assistant"), ("content", r2)]] := by
  refine ⟨rfl, ?_, ?_⟩ <;> simp [migrateRecord, hq, hr, hq2, hr2]

/-- Witness for C2 on concrete records. -/
theorem migrate_per_record_witness :
    migrate ([("query", "a"), ("response", "b")] :: [[("query", "c")]]) =
      migrateRecord [("query", "a"), ("response", "b")] ++
        migrate [[("query", "c")]] ∧
    migrateRecord [("query", "a"), ("response", "b")] =
      [[("role", "user"), ("content", "a")],
       [("role", "assistant"), ("content", "b")]] ∧
    migrateRecord [("response", "d")] =
      [[("role", "assistant"), ("content", "d")]] :=
  migrate_per_record [("query", "a"), ("response", "b")] [("response", "d")]
    [[("query", "c")]] "a" "b" "d" (by decide) (by decide) (by decide) (by decide)

/-- C3: the migration step of load leaves a sequence that is already in
current role/content format unchanged (migration is idempotent). -/
theorem migration_idempotent_on_current (records : List Obj)
    (h : isCurrentFormat records = true) :
    migrationStep records = records := by
  simp [migrationStep, isLegacyForm_of_current records h]

/-- Witness for C3 on the spec scenario turns. -/
theorem migration_idempotent_on_current_witness :
    migrationStep demoTurns = demoTurns :=
  migration_idempotent_on_current demoTurns (by decide)

/-- C4: load on a session id with no persisted record returns the empty
sequence, and load directly after save of a current-format turn
sequence under the same id returns exactly that sequence. -/
theorem load_after_save (st : Store) (sid : String) (ts : List Obj)
    (hcur : isCurrentFormat ts = true) :
    (lookupKey st sid = none → load_history st sid = Doc.arr []) ∧
    load_history (save_history st sid (Doc.arr ts)) sid = Doc.arr ts := by
  constructor
  · intro h
    simp [load_history, h]
  · have hfind : lookupKey (save_history st sid (Doc.arr ts)) sid =
        some (FileContent.json (Doc.arr ts)) := by
      simp [save_history, lookupKey]
    cases ts with
    | nil => simp [load_history, hfind, Doc.truthy]
    | cons t rest => simp [load_history, hfind, Doc.truthy]

/-- Witness for C4 on the empty store and the spec scenario turns. -/
theorem load_after_save_witness :
    (lookupKey ([] : Store) "demo" = none →
      load_history [] "demo" = Doc.arr []) ∧
    load_history (save_history [] "demo" (Doc.arr demoTurns)) "demo" =
      Doc.arr demoTurns :=
  load_after_save [] "demo" demoTurns (by decide)

/-- C5: when the persisted record is unreadable or unparseable, load
returns the empty sequence; being a total function, it raises nothing
to the caller. -/
theorem load_corrupt_returns_empty (st : Store) (sid : String)
    (h : lookupKey st sid = some FileContent.corrupt) :
    load_history st sid = Doc.arr [] := by
  simp [load_history, h]

/-- Witness for C5 on a store with one corrupt file. -/
theorem load_corrupt_returns_empty_witness :
    load_history demoCorruptStore "bad" = Doc.arr [] :=
  load_corrupt_returns_empty demoCorruptStore "bad" (by decide)

/-- C6: delete removes the persisted record of every id in the set, a
subsequent load of such an id returns the empty sequence, and deleting
again is a no-op (ids without a record are not an error). -/
theorem delete_sessions_spec (st : Store) (sids : List String) (sid : String)
    (hmem : sid ∈ sids) :
    lookupKey (delete_sessions st sids) sid = none ∧
    load_history (delete_sessions st sids) sid = Doc.arr [] ∧
    delete_sessions (delete_sessions st sids) sids = delete_sessions st sids := by
  have hnone : lookupKey (delete_sessions st sids) sid = none := by
    rw [lookupKey_delete_sessions]
    simp [hmem]
  refine ⟨hnone, by simp [load_history, hnone], ?_⟩
  apply delete_sessions_absent
  intro sid2 h2
  rw [lookupKey_delete_sessions]
  simp [h2]

/-- Witness for C6 on the spec scenario store. -/
theorem delete_sessions_spec_witness :
    lookupKey (delete_sessions demoStore ["s"]) "s" = none ∧
    load_history (delete_sessions demoStore ["s"]) "s" = Doc.arr [] ∧
    delete_sessions (delete_sessions demoStore ["s"]) ["s"] =
      delete_sessions demoStore ["s"] :=
  delete_sessions_spec demoStore ["s"] "s" (by decide)

/-- C7: the session listing after a save includes the saved id, and
after a delete excludes every deleted id. -/
theorem list_sessions_after_save_delete (st : Store) (sid : String) (h : Doc)
    (sids : List String) (hmem : sid ∈ sids) :
    sid ∈ get_session_ids (save_history st sid h) ∧
    sid ∉ get_session_ids (delete_sessions st sids) := by
  constructor
  · simp [get_session_ids, save_history]
  · have hnone : lookupKey (delete_sessions st sids) sid = none := by
      rw [lookupKey_delete_sessions]
      simp [hmem]
    exact (lookupKey_eq_none_iff _ _).mp hnone

/-- Witness for C7 on the spec scenario store. -/
theorem list_sessions_after_save_delete_witness :
    "s" ∈ get_session_ids (save_history demoStore "s" (Doc.arr demoTurns)) ∧
    "s" ∉ get_session_ids (delete_sessions demoStore ["s"]) :=
  list_sessions_after_save_delete demoStore "s" (Doc.arr demoTurns) ["s"]
    (by decide)

/-- C8: on any network or HTTP failure, fetch_models reports the error
to the presentation layer and returns the empty list without raising;
on success it returns the names found (empty when the body has no
`models` key). -/
theorem fetch_models_spec (msg : String) (ms : List Obj)
    (hok : ∀ m ∈ ms, (lookupKey m "name").isSome = true) :
    fetch_models (FetchOutcome.exc msg) =
      Except.ok ([], [fetchErrorReport msg]) ∧
    fetch_models (FetchOutcome.ok none) = Except.ok ([], []) ∧
    fetch_models (FetchOutcome.ok (some ms)) =
      Except.ok (ms.filterMap (fun m => lookupKey m "name"), []) := by
  refine ⟨rfl, rfl, ?_⟩
  simp [fetch_models, extractNames_ok ms hok, Except.map]

/-- Witness for C8 on a failure message and a one-model body. -/
theorem fetch_models_spec_witness :
    fetch_models (FetchOutcome.exc "boom") =
      Except.ok ([], [fetchErrorReport "boom"]) ∧
    fetch_models (FetchOutcome.ok none) = Except.ok ([], []) ∧
    fetch_models (FetchOutcome.ok (some [[("name", "llama3")]])) =
      Except.ok
        ([[("name", "llama3")]].filterMap (fun m => lookupKey m "name"), []) :=
  fetch_models_spec "boom" [[("name", "llama3")]] (by decide)

/-- C9: the delete-button handler leaves the controller's in-memory
turn sequence unchanged even when the deleted set contains the active
session's id. -/
theorem delete_button_keeps_messages (st : Store) (messages : Doc)
    (selected : List String) (activeId : String)
    (hactive : activeId ∈ selected) :
    (delete_button_handler st messages selected).2 = messages := rfl

/-- Witness for C9: deleting the active session `s` keeps its turns. -/
theorem delete_button_keeps_messages_witness :
    (delete_button_handler demoStore (Doc.arr demoTurns) ["s"]).2 =
      Doc.arr demoTurns :=
  delete_button_keeps_messages demoStore (Doc.arr demoTurns) ["s"] "s"
    (by decide)

/-- C10: when the persisted file parses to a falsy value (null, false,
zero, empty string, empty list or empty object), load returns the empty
sequence rather than that value. -/
theorem load_falsy_returns_empty (st : Store) (sid : String) (d : Doc)
    (hfile : lookupKey st sid = some (FileContent.json d))
    (hfalsy : d.truthy = false) :
    load_history st sid = Doc.arr [] := by
  simp [load_history, hfile, hfalsy]

/-- Witness for C10 on a store whose file parses to `null`. -/
theorem load_falsy_returns_empty_witness :
    load_history demoNullStore "n" = Doc.arr [] :=
  load_falsy_returns_empty demoNullStore "n" Doc.null (by decide) (by decide)

end OllamaPlayground
